import Mathlib

/-!
Verification of the identifier-generation utility, the chart class-name
helper, the Form component's rendered attributes, and the ChartArea
container-cloning logic of this repository, via a shallow embedding in Lean.

JavaScript objects (prop bags) are modelled as association lists in which a
later binding overrides an earlier one, matching object-spread semantics.
Strings are Lean strings; character lists stand in for JS string scanning.
-/

namespace PFReact

/-! ## GenerateId (modelled from the spec)

The implementation of the `GenerateId` render-prop utility is not part of
the supplied sources (only its snapshot test is), so it is modelled from the
specification: a boolean `isRandom` flag (default true), a callback
`render : String → T`, a fixed documented constant `"id"` for the
deterministic mode, and for the random mode a fixed human-readable prefix
followed by a base-36 suffix of a fixed documented length, the randomness
source being injected as a value (here, the base-36 digits drawn). -/

/-- Modelled from the spec: the fixed documented constant identifier
delivered when `isRandom = false`. -/
def deterministicId : String := "id"

/-- Modelled from the spec: the fixed human-readable prefix of a randomly
generated identifier. -/
def idStem : String := "pf-random-id-"

/-- Modelled from the spec: the fixed documented length of the random
base-36 suffix. -/
def suffixLen : Nat := 5

/-- Modelled from the spec: one base-36 digit rendered as a character of
the alphabet 0-9a-z, as produced by a base-36 encoding of a random value. -/
def base36Digit (n : Fin 36) : Char :=
  if n.val < 10 then Char.ofNat (48 + n.val) else Char.ofNat (87 + n.val)

/-- Modelled from the spec: the identifier built in random mode from the
injected random digits: the fixed prefix followed by the base-36 suffix. -/
def randomId (rand : List (Fin 36)) : String :=
  idStem ++ ⟨rand.map base36Digit⟩

/-- Modelled from the spec: the single identifier a call produces, as a
function of the mode flag and of the injected randomness. -/
def producedId (isRandom : Bool) (rand : List (Fin 36)) : String :=
  if isRandom then randomId rand else deterministicId

/-- Modelled from the spec: `GenerateId` computes one identifier and
delivers it to the caller-supplied callback, returning the callback's
result unchanged.  The randomness source is an injected dependency. -/
def GenerateId {T : Type} (isRandom : Bool) (rand : List (Fin 36))
    (render : String → T) : T :=
  render (producedId isRandom rand)

/-- Modelled from the spec: the flag is optional and defaults to true when
unspecified. -/
def GenerateIdOpt {T : Type} (isRandom : Option Bool) (rand : List (Fin 36))
    (render : String → T) : T :=
  GenerateId (isRandom.getD true) rand render

/-- Running a sequence of invocations, each with its own flag and injected
randomness, collecting each call's identifier. -/
def runCalls (calls : List (Bool × List (Fin 36))) : List String :=
  calls.map fun c => GenerateId c.1 c.2 (fun s => s)

end PFReact

namespace PFReact

/-- The data of an appended string is the appended data. -/
theorem data_append (s t : String) : (s ++ t).data = s.data ++ t.data := rfl

/-- C1: with `isRandom = false` the identifier delivered to the callback is
the fixed documented constant `"id"` on every call, independently of the
injected randomness; in particular with `render = id ↦ "div id=" ++ id`
the provider returns `"div id=id"`. -/
theorem generateId_deterministic (rand : List (Fin 36)) {T : Type}
    (render : String → T) :
    GenerateId false rand render = render "id"
      ∧ GenerateId false rand (fun id => "div id=" ++ id) = "div id=id" :=
  ⟨rfl, rfl⟩

/-- C2: one call produces exactly one identifier, invokes the callback
exactly once with it, and returns exactly the callback's result: the
result equals `render` applied to the single produced identifier, and a
logging callback records exactly one invocation carrying that identifier. -/
theorem generateId_single_invocation (isRandom : Bool) (rand : List (Fin 36))
    {T : Type} (render : String → T) :
    GenerateId isRandom rand render = render (producedId isRandom rand)
      ∧ GenerateId isRandom rand (fun id => [id]) = [producedId isRandom rand] :=
  ⟨rfl, rfl⟩

/-- C3: a callback error propagates unmodified and the provider adds no
handling of its own: for a fallible callback the provider returns exactly
the callback's outcome, so a callback that raises `"boom"` makes the call
raise `"boom"` unchanged, and a callback that never errors makes the call
succeed, for either boolean flag. -/
theorem generateId_error_propagation (isRandom : Bool) (rand : List (Fin 36))
    {E T : Type} (render : String → Except E T) :
    GenerateId isRandom rand render = render (producedId isRandom rand)
      ∧ (∀ e : E, (∀ s, render s = Except.error e) →
          GenerateId isRandom rand render = Except.error e)
      ∧ ((∀ s, ∃ t, render s = Except.ok t) →
          ∃ t, GenerateId isRandom rand render = Except.ok t) := by
  refine ⟨rfl, fun e h => ?_, fun h => ?_⟩
  · exact h (producedId isRandom rand)
  · exact h (producedId isRandom rand)

/-- C3 witness: a callback raising `"boom"` makes the provider raise
`"boom"` unmodified. -/
theorem generateId_error_propagation_witness :
    GenerateId true [] (fun _ => (Except.error "boom" : Except String Unit))
      = Except.error "boom" :=
  (generateId_error_propagation true []
      (fun _ => (Except.error "boom" : Except String Unit))).2.1
    "boom" (fun _ => rfl)

/-- C4: the identifier passed to the callback is a non-empty string; in
random mode it is the fixed prefix followed by the base-36 rendering of
the injected random digits, so with the documented number of digits its
length is the prefix length plus the fixed suffix length. -/
theorem generateId_format (isRandom : Bool) (rand : List (Fin 36))
    (h : rand.length = suffixLen) :
    producedId isRandom rand ≠ ""
      ∧ (isRandom = true →
          producedId isRandom rand = idStem ++ ⟨rand.map base36Digit⟩
            ∧ (producedId isRandom rand).length = idStem.length + suffixLen) := by
  constructor
  · cases isRandom with
    | false =>
        intro he
        have hid : deterministicId = "" := he
        exact absurd (congrArg String.data hid) (by decide)
    | true =>
        intro he
        have hd := congrArg String.data he
        simp [producedId, randomId, data_append, idStem] at hd
  · intro hr
    subst hr
    refine ⟨rfl, ?_⟩
    have hd : (producedId true rand).data = idStem.data ++ rand.map base36Digit := rfl
    show (producedId true rand).data.length = idStem.data.length + suffixLen
    rw [hd, List.length_append, List.length_map, h]

/-- C4 witness: at a concrete five-digit draw the identifier is non-empty
and has the documented total length. -/
theorem generateId_format_witness :
    producedId true [0, 1, 2, 3, (35 : Fin 36)] ≠ ""
      ∧ (producedId true [0, 1, 2, 3, (35 : Fin 36)]).length
          = idStem.length + suffixLen := by
  have h := generateId_format true [0, 1, 2, 3, (35 : Fin 36)] (by decide)
  exact ⟨h.1, (h.2 rfl).2⟩

/-- C5: in random mode, distinct draws from the injected randomness source
yield distinct identifiers. -/
theorem generateId_distinct (r1 r2 : List (Fin 36)) (h : r1 ≠ r2) :
    GenerateId true r1 (fun s => s) ≠ GenerateId true r2 (fun s => s) := by
  intro he
  apply h
  have hd : idStem.data ++ r1.map base36Digit = idStem.data ++ r2.map base36Digit :=
    congrArg String.data he
  have hm : r1.map base36Digit = r2.map base36Digit := by
    exact List.append_cancel_left hd
  have hinj : ∀ a b : Fin 36, base36Digit a = base36Digit b → a = b := by decide
  exact List.map_injective_iff.mpr hinj hm

/-- C5 witness: two concrete distinct draws give distinct identifiers. -/
theorem generateId_distinct_witness :
    GenerateId true [(0 : Fin 36)] (fun s => s)
      ≠ GenerateId true [(1 : Fin 36)] (fun s => s) :=
  generateId_distinct [0] [1] (by decide)

/-- C6: leaving the flag unspecified behaves exactly as `isRandom = true`
over the same injected randomness, for any callback. -/
theorem generateId_default_flag (rand : List (Fin 36)) {T : Type}
    (render : String → T) :
    GenerateIdOpt none rand render = GenerateId true rand render := rfl

/-- C7: invocations are independent and retain no state: appending a call
to any call sequence leaves every earlier result unchanged and the new
call's result is a function of that call's own flag and randomness alone,
so the same inputs give the same identifier regardless of call history. -/
theorem generateId_stateless (pre : List (Bool × List (Fin 36)))
    (c : Bool × List (Fin 36)) :
    runCalls (pre ++ [c]) = runCalls pre ++ [producedId c.1 c.2]
      ∧ ∀ pre2, (runCalls (pre ++ [c])).getLast?
          = (runCalls (pre2 ++ [c])).getLast? := by
  constructor
  · simp [runCalls, GenerateId]
  · intro pre2
    simp [runCalls, GenerateId]

end PFReact

namespace PFReact

/-! ## getClassName (react-charts chart utils)

`getClassName` strips `VictoryContainer`, `pf-v6-c-chart` and `pf-c-chart`
from the incoming class name, collapses whitespace runs to single spaces,
trims, and prepends the base chart class.  String scanning is embedded on
`List Char`; the regex-replace loop is written with an explicit step
counter (one unit per scanned character, so an initial budget of the input
length always suffices) to keep it structurally recursive. -/

/-- A character of the JS regex whitespace class `\s`. -/
def jsWhitespace (c : Char) : Bool :=
  c.val = 32 || (9 ≤ c.val && c.val ≤ 13) || c.val = 0xa0 || c.val = 0x1680 ||
  (0x2000 ≤ c.val && c.val ≤ 0x200a) || c.val = 0x2028 || c.val = 0x2029 ||
  c.val = 0x202f || c.val = 0x205f || c.val = 0x3000 || c.val = 0xfeff

/-- One left-to-right non-overlapping global replace
(`.replace(/pat/g, rep)`), with a step budget of one per scanned
character: at a match the pattern's characters are consumed and the
replacement emitted, otherwise one character is kept. -/
def replaceAllF (pat rep : List Char) : Nat → List Char → List Char
  | _, [] => []
  | 0, s => s
  | fuel + 1, c :: rest =>
    if pat.isPrefixOf (c :: rest) ∧ pat ≠ [] then
      rep ++ replaceAllF pat rep fuel (rest.drop (pat.length - 1))
    else
      c :: replaceAllF pat rep fuel rest

/-- Global replace of a pattern in a character list. -/
def replaceAll (pat rep s : List Char) : List Char :=
  replaceAllF pat rep s.length s

/-- `collapseWsAux prevWs s` replaces each maximal whitespace run of `s`
by a single space (`.replace(/\s+/g, ' ')`); `prevWs` records whether the
previous character belonged to a run already collapsed. -/
def collapseWsAux : Bool → List Char → List Char
  | _, [] => []
  | prevWs, c :: rest =>
    if jsWhitespace c then
      (if prevWs then [] else [' ']) ++ collapseWsAux true rest
    else c :: collapseWsAux false rest

/-- Collapse every whitespace run to a single space. -/
def collapseWs (l : List Char) : List Char := collapseWsAux false l

/-- Remove leading and trailing whitespace (`.trim()`). -/
def trimWs (l : List Char) : List Char :=
  ((l.dropWhile jsWhitespace).reverse.dropWhile jsWhitespace).reverse

/-- The cleaning pipeline applied to a supplied class name: delete every
occurrence of `VictoryContainer`, then of `pf-v6-c-chart`, then of
`pf-c-chart`, collapse whitespace runs to single spaces, and trim. -/
def cleanChartClassName (s : String) : String :=
  ⟨trimWs (collapseWs
    (replaceAll "pf-c-chart".data []
      (replaceAll "pf-v6-c-chart".data []
        (replaceAll "VictoryContainer".data [] s.data))))⟩

/-- `getClassName` of the chart utils: clean the class name when one was
supplied (a missing or empty class name is falsy and skips cleaning), and
prepend the base chart class, alone when the cleaned remainder is empty. -/
def getClassName (className : Option String) : String :=
  match className with
  | some s =>
    if s ≠ "" ∧ cleanChartClassName s ≠ "" then
      "pf-v6-c-chart " ++ cleanChartClassName s
    else "pf-v6-c-chart"
  | none => "pf-v6-c-chart"

/-- Cleaning the empty class name yields the empty string. -/
theorem cleanChartClassName_empty : cleanChartClassName "" = "" := rfl

/-- C8: `getClassName` always returns a string beginning with
`pf-v6-c-chart`; for an absent class name, or one whose cleaned remainder
is empty, the result is exactly `pf-v6-c-chart`; otherwise it is
`pf-v6-c-chart ` followed by the cleaned remainder. -/
theorem getClassName_spec (cn : Option String) :
    (∃ t, (getClassName cn).data = "pf-v6-c-chart".data ++ t)
      ∧ getClassName none = "pf-v6-c-chart"
      ∧ (∀ s, cn = some s → cleanChartClassName s = "" →
          getClassName cn = "pf-v6-c-chart")
      ∧ (∀ s, cn = some s → cleanChartClassName s ≠ "" →
          getClassName cn = "pf-v6-c-chart " ++ cleanChartClassName s) := by
  have hsp : "pf-v6-c-chart ".data = "pf-v6-c-chart".data ++ [' '] := by decide
  refine ⟨?_, rfl, ?_, ?_⟩
  · cases cn with
    | none => exact ⟨[], rfl⟩
    | some s =>
      by_cases h1 : s ≠ "" ∧ cleanChartClassName s ≠ ""
      · refine ⟨' ' :: (cleanChartClassName s).data, ?_⟩
        have hg : getClassName (some s) = "pf-v6-c-chart " ++ cleanChartClassName s :=
          if_pos h1
        rw [hg, data_append, hsp, List.append_assoc]
        rfl
      · exact ⟨[], by simp [getClassName, h1]⟩
  · intro s hs hclean
    subst hs
    have : ¬(s ≠ "" ∧ cleanChartClassName s ≠ "") := fun h => h.2 hclean
    simp [getClassName, this]
  · intro s hs hclean
    subst hs
    have hs0 : s ≠ "" := by
      intro h0
      subst h0
      exact hclean cleanChartClassName_empty
    simp [getClassName, hs0, hclean]

/-- C8 witness: concrete inputs exercising both branches: a class name
cleaning to `foo`, and one cleaning to the empty remainder. -/
theorem getClassName_spec_witness :
    getClassName (some "foo VictoryContainer")
        = "pf-v6-c-chart " ++ cleanChartClassName "foo VictoryContainer"
      ∧ getClassName (some " pf-v6-c-chart   VictoryContainer ") = "pf-v6-c-chart" :=
  ⟨(getClassName_spec (some "foo VictoryContainer")).2.2.2
      "foo VictoryContainer" rfl (by decide),
   (getClassName_spec (some " pf-v6-c-chart   VictoryContainer ")).2.2.1
      " pf-v6-c-chart   VictoryContainer " rfl (by decide)⟩

end PFReact

namespace PFReact

/-! ## Form (react-core)

`FormBase` renders `<form noValidate {...(maxWidth && {style})} {...props}
className={css(...)} ref={innerRef}>`.  JSX attributes are assembled in
order with later bindings overriding earlier ones, so the rest-prop spread
can override the literal `noValidate` and the computed `style`.  The model
records the attributes the claim is about: the caller's extra props are the
optional `style` and `noValidate` entries of the rest spread (any other
rest entry neither reads nor writes these attributes). -/

/-- Reading a key of a JS object (association list, later binding wins). -/
def objGet {V : Type} (o : List (String × V)) (k : String) : Option V :=
  match o with
  | [] => none
  | (k', v) :: rest =>
    match objGet rest k with
    | some w => some w
    | none => if k' = k then some v else none

/-- The props of the `Form` component used by the rendering: the four
destructured props, plus the `style` and `noValidate` entries the caller
may have put among the remaining (`...props`) props. -/
structure FormProps where
  className : String := ""
  isHorizontal : Bool := false
  isWidthLimited : Bool := false
  maxWidth : String := ""
  restStyle : Option (List (String × String)) := none
  restNoValidate : Option Bool := none

/-- The attributes of the rendered `form` element the claim speaks about. -/
structure FormElement where
  noValidate : Bool
  style : Option (List (String × String))
  className : String

/-- The CSS custom property name of the form's limit-width max-width token. -/
def cssMaxWidthName : String := "--pf-v6-c-form--m-limit-width--MaxWidth"

/-- The base form class of `@patternfly/react-styles`. -/
def formClass : String := "pf-v6-c-form"

/-- The horizontal modifier class. -/
def modHorizontal : String := "pf-m-horizontal"

/-- The limit-width modifier class. -/
def modLimitWidth : String := "pf-m-limit-width"

/-- Joining class strings with single spaces (`classes.join(' ')`). -/
def cssJoin : List String → String
  | [] => ""
  | [c] => c
  | c :: rest => c ++ " " ++ cssJoin rest

/-- The `css` helper of `@patternfly/react-styles`: keep the truthy
arguments and join them with spaces (`classes.filter(Boolean).join(' ')`);
`none` stands for a falsy (`false &&`-skipped) argument and the empty
string is falsy as well. -/
def css (classes : List (Option String)) : String :=
  cssJoin ((classes.filterMap id).filter (fun c => c ≠ ""))

/-- `FormBase`: the rendered form element.  `noValidate` is written first
and overridden by a `noValidate` entry of the rest spread; the computed
style (the max-width custom property merged with the caller's style) is
spread only when `maxWidth` is truthy and is replaced entirely by the
caller's `style` when the rest spread carries one; the class attribute is
written after the rest spread and is the `css` join of the base class, the
conditional modifiers and the caller's `className`. -/
def FormBase (p : FormProps) : FormElement :=
  let computedStyle : Option (List (String × String)) :=
    if p.maxWidth ≠ "" then
      some ((cssMaxWidthName, p.maxWidth) :: p.restStyle.getD [])
    else none
  { noValidate := p.restNoValidate.getD true
    style :=
      match p.restStyle with
      | some s => some s
      | none => computedStyle
    className := css [some formClass,
      if p.isHorizontal then some modHorizontal else none,
      if p.isWidthLimited ∨ p.maxWidth ≠ "" then some modLimitWidth else none,
      some p.className] }

/-- Splitting a character list at each space, as a DOM class attribute is
read as a class list. -/
def splitSp : List Char → List (List Char)
  | [] => [[]]
  | c :: rest =>
    if c = ' ' then [] :: splitSp rest
    else
      match splitSp rest with
      | [] => [[c]]
      | w :: ws => (c :: w) :: ws

/-- The class list of a rendered form element. -/
def classList (el : FormElement) : List (List Char) :=
  splitSp el.className.data

end PFReact

namespace PFReact

/-- Splitting never yields the empty list of tokens. -/
theorem splitSp_ne_nil (l : List Char) : splitSp l ≠ [] := by
  induction l with
  | nil => simp [splitSp]
  | cons c rest ih =>
    simp only [splitSp]
    by_cases hc : c = ' '
    · simp [hc]
    · simp only [if_neg hc]
      cases hsp : splitSp rest with
      | nil => simp
      | cons w ws => simp

/-- Splitting at an explicit separating space splits each side. -/
theorem splitSp_append (a b : List Char) :
    splitSp (a ++ ' ' :: b) = splitSp a ++ splitSp b := by
  induction a with
  | nil => simp [splitSp]
  | cons c rest ih =>
    by_cases hc : c = ' '
    · subst hc
      simp [splitSp, ih]
    · simp only [List.cons_append, splitSp, if_neg hc]
      cases hsp : splitSp rest with
      | nil => exact absurd hsp (splitSp_ne_nil rest)
      | cons w ws =>
        simp only [List.append_eq]
        rw [ih, hsp]
        simp

/-- The tokens contributed by a list of class strings. -/
def classTokens : List String → List (List Char)
  | [] => []
  | p :: rest => splitSp p.data ++ classTokens rest

/-- The class tokens of a space-joined class list are those of its parts. -/
theorem splitSp_cssJoin (parts : List String) (h : parts ≠ []) :
    splitSp (cssJoin parts).data = classTokens parts := by
  induction parts with
  | nil => exact absurd rfl h
  | cons c rest ih =>
    cases rest with
    | nil => simp [cssJoin, classTokens]
    | cons d rest2 =>
      have he : cssJoin (c :: d :: rest2) = c ++ " " ++ cssJoin (d :: rest2) := rfl
      have hd2 : (c ++ " " ++ cssJoin (d :: rest2)).data
          = c.data ++ ' ' :: (cssJoin (d :: rest2)).data := by
        rw [data_append, data_append]
        simp
      rw [he, hd2, splitSp_append, ih (by simp)]
      simp [classTokens]

/-- The rendered form's class list laid out chunk by chunk: the base class
tokens, then each conditional modifier's tokens, then the caller
`className`'s tokens when it is non-empty. -/
theorem classList_formBase (p : FormProps) :
    classList (FormBase p)
      = splitSp formClass.data
          ++ (if p.isHorizontal then splitSp modHorizontal.data else [])
          ++ (if p.isWidthLimited ∨ p.maxWidth ≠ "" then splitSp modLimitWidth.data else [])
          ++ (if p.className = "" then [] else splitSp p.className.data) := by
  rcases Bool.dichotomy p.isHorizontal with hH | hH <;>
    by_cases hL : p.isWidthLimited ∨ p.maxWidth ≠ "" <;>
    by_cases hC : p.className = "" <;>
    simp [classList, FormBase, css, hH, hL, hC, splitSp_cssJoin, classTokens,
      formClass, modHorizontal, modLimitWidth]

end PFReact

namespace PFReact

/-- C9 counterexample: with `noValidate: false` among the remaining props
and a caller `className` equal to the limit-width modifier (while
`isWidthLimited` is false and `maxWidth` empty), the rendered form element
does not have `noValidate` set — the rest spread, written after the
literal `noValidate`, overrides it — and carries the limit-width class
although neither condition of the claim holds. -/
theorem formBase_claim_counterexample :
    (FormBase { className := modLimitWidth, restNoValidate := some false }).noValidate
        = false
      ∧ modLimitWidth.data
          ∈ classList (FormBase { className := modLimitWidth, restNoValidate := some false })
      ∧ ({ className := modLimitWidth, restNoValidate := some false } : FormProps).isWidthLimited = false
      ∧ ({ className := modLimitWidth, restNoValidate := some false } : FormProps).maxWidth = "" := by
  decide

end PFReact

namespace PFReact

/-- C9 (amended): the rendered form's `noValidate` equals the caller's
`noValidate` from the remaining props when one is given and is set
otherwise; the class list always contains the base form class; the
limit-width modifier class is present exactly when `isWidthLimited` is
true, `maxWidth` is a non-empty string, or the caller's `className` itself
contains that token; a caller-supplied `style` prop, spread after the
computed one, replaces it entirely, and when none is supplied the rendered
style carries the max-width custom property exactly when `maxWidth` is
non-empty. -/
theorem formBase_spec (p : FormProps) :
    (FormBase p).noValidate = p.restNoValidate.getD true
      ∧ formClass.data ∈ classList (FormBase p)
      ∧ (modLimitWidth.data ∈ classList (FormBase p)
          ↔ (p.isWidthLimited = true ∨ p.maxWidth ≠ ""
              ∨ modLimitWidth.data ∈ splitSp p.className.data))
      ∧ (∀ s, p.restStyle = some s → (FormBase p).style = some s)
      ∧ (p.restStyle = none →
          objGet ((FormBase p).style.getD []) cssMaxWidthName
            = if p.maxWidth = "" then none else some p.maxWidth) := by
  have hself : modLimitWidth.data ∈ splitSp modLimitWidth.data := by decide
  have hnf : modLimitWidth.data ∉ splitSp formClass.data := by decide
  have hnh : modLimitWidth.data ∉ splitSp modHorizontal.data := by decide
  have hne : modLimitWidth.data ∉ splitSp ("" : String).data := by decide
  refine ⟨rfl, ?_, ?_, ?_, ?_⟩
  · rw [classList_formBase]
    exact List.mem_append.mpr (Or.inl (List.mem_append.mpr (Or.inl
      (List.mem_append.mpr (Or.inl (by decide))))))
  · rw [classList_formBase]
    by_cases hL : p.isWidthLimited ∨ p.maxWidth ≠ ""
    · rw [if_pos hL]
      constructor
      · intro _
        rcases hL with hL | hL
        · exact Or.inl hL
        · exact Or.inr (Or.inl hL)
      · intro _
        exact List.mem_append.mpr (Or.inl (List.mem_append.mpr (Or.inr hself)))
    · rw [if_neg hL]
      push_neg at hL
      constructor
      · intro hmem
        refine Or.inr (Or.inr ?_)
        rcases List.mem_append.mp hmem with hmem | hmem
        · rcases List.mem_append.mp hmem with hmem | hmem
          · rcases List.mem_append.mp hmem with hmem | hmem
            · exact absurd hmem hnf
            · rcases Bool.dichotomy p.isHorizontal with hH | hH
              · rw [hH] at hmem
                simp at hmem
              · rw [hH] at hmem
                simp only [if_pos rfl] at hmem
                exact absurd hmem hnh
          · simp at hmem
        · by_cases hC : p.className = ""
          · rw [if_pos hC] at hmem
            simp at hmem
          · rw [if_neg hC] at hmem
            exact hmem
      · intro hmem
        rcases hmem with hmem | hmem | hmem
        · exact absurd hmem hL.1
        · exact absurd hL.2 hmem
        · by_cases hC : p.className = ""
          · rw [hC] at hmem
            exact absurd hmem hne
          · refine List.mem_append.mpr (Or.inr ?_)
            rw [if_neg hC]
            exact hmem
  · intro s hs
    simp [FormBase, hs]
  · intro hs
    by_cases hm : p.maxWidth = ""
    · simp [FormBase, hs, hm, objGet]
    · simp [FormBase, hs, hm, objGet]

/-- C9 witness: concrete props exercising the amended claim's hypotheses:
a caller-supplied style replaces the computed style, and without one the
max-width custom property is rendered from a non-empty `maxWidth`. -/
theorem formBase_spec_witness :
    (FormBase { maxWidth := "100px", restStyle := some [("color", "red")] }).style
        = some [("color", "red")]
      ∧ objGet ((FormBase { maxWidth := "100px" }).style.getD []) cssMaxWidthName
        = if ("100px" : String) = "" then none else some "100px" :=
  ⟨(formBase_spec { maxWidth := "100px", restStyle := some [("color", "red")] }).2.2.2.1
      [("color", "red")] rfl,
   (formBase_spec { maxWidth := "100px" }).2.2.2.2 rfl⟩

end PFReact

namespace PFReact

/-! ## ChartArea (react-charts)

`ChartArea` resolves `theme = getTheme(themeColor)` unless a `theme` prop
was supplied, clones the container with `cloneElement(containerComponent,
{ theme, ...containerComponent.props })` — so the caller's own container
props, spread last in the config, win over the injected theme — and
renders the area component with the cloned container, the resolved theme
and every remaining prop.  Prop values are an arbitrary type `V`; the
theme table lookup `getTheme` is an injected function. -/

/-- A rendered element carrying a JS props object. -/
structure ReactElement (V : Type) where
  props : List (String × V)

/-- `cloneElement(el, config)`: the clone's props are the element's props
with the config's bindings added after them (a config binding overrides). -/
def cloneElement {V : Type} (el : ReactElement V) (config : List (String × V)) :
    ReactElement V :=
  ⟨el.props ++ config⟩

/-- The props `ChartArea` destructures, plus the forwarded rest. -/
structure ChartAreaProps (V : Type) where
  containerComponent : ReactElement V
  themeColor : Option String := none
  theme : Option V := none
  rest : List (String × V) := []

/-- The underlying area component's received props. -/
structure RenderedArea (V : Type) where
  containerComponent : ReactElement V
  theme : V
  rest : List (String × V)

/-- `ChartArea`: resolve the theme (defaulting through the supplied theme
lookup), clone the container with the theme injected before the caller's
own container props, and forward the remaining props unchanged. -/
def ChartArea {V : Type} (getTheme : Option String → V) (p : ChartAreaProps V) :
    RenderedArea V :=
  let theme := p.theme.getD (getTheme p.themeColor)
  let container := cloneElement p.containerComponent
    (("theme", theme) :: p.containerComponent.props)
  { containerComponent := container, theme := theme, rest := p.rest }

/-- Reading an appended JS object: the later part wins. -/
theorem objGet_append {V : Type} (a b : List (String × V)) (k : String) :
    objGet (a ++ b) k
      = match objGet b k with
        | some w => some w
        | none => objGet a k := by
  induction a with
  | nil =>
    simp only [List.nil_append]
    cases hb : objGet b k <;> simp [objGet, hb]
  | cons kv a ih =>
    obtain ⟨k', v⟩ := kv
    simp only [List.cons_append, objGet, List.append_eq]
    rw [ih]
    cases hb : objGet b k <;> cases ha : objGet a k <;> simp [objGet, hb, ha]

/-- C10: the cloned container preserves every prop the caller set on the
supplied `containerComponent` unchanged (the caller's props win over the
injected theme); reading `theme` on the clone yields the caller's own
`theme` when the container carried one and the resolved theme otherwise
(so the resolved theme is added only then); and the remaining `ChartArea`
props are forwarded to the underlying area component unmodified. -/
theorem chartArea_spec {V : Type} (getTheme : Option String → V)
    (p : ChartAreaProps V) :
    (∀ k v, objGet p.containerComponent.props k = some v →
        objGet (ChartArea getTheme p).containerComponent.props k = some v)
      ∧ objGet (ChartArea getTheme p).containerComponent.props "theme"
          = (match objGet p.containerComponent.props "theme" with
             | some w => some w
             | none => some (p.theme.getD (getTheme p.themeColor)))
      ∧ (ChartArea getTheme p).rest = p.rest := by
  refine ⟨?_, ?_, rfl⟩
  · intro k v h
    show objGet (p.containerComponent.props
      ++ ("theme", p.theme.getD (getTheme p.themeColor)) :: p.containerComponent.props) k
      = some v
    rw [objGet_append]
    simp only [objGet, h]
  · show objGet (p.containerComponent.props
      ++ ("theme", p.theme.getD (getTheme p.themeColor)) :: p.containerComponent.props) "theme"
      = _
    rw [objGet_append]
    simp only [objGet]
    cases objGet p.containerComponent.props "theme" <;> simp

/-- C10 witness: a concrete container whose caller-set props — including
its own `theme` — survive cloning unchanged, read back through the clone. -/
theorem chartArea_spec_witness :
    objGet (ChartArea (fun _ => "resolved")
        { containerComponent := ⟨[("padding", "10"), ("theme", "mine")]⟩ }
      ).containerComponent.props "padding" = some "10" :=
  (chartArea_spec (fun _ => "resolved")
      { containerComponent := ⟨[("padding", "10"), ("theme", "mine")]⟩ }).1
    "padding" "10" (by decide)

end PFReact
